import Mathlib

/-!
Shallow embedding of the resilient generation pipeline of
`scripts/daily_ai_report.py` and of the Drive mirror step of
`scripts/upload_to_drive.py`.

External effects are made explicit:
* a generation service is a function from (model name, prompt, attempt
  index) to an `Except`-outcome, so a retry loop can be replayed on it;
* sleeps and remote-drive calls are returned as explicit traces;
* a successful generation used by straight-line code (continuation,
  format-guard phase) is a function from (model name, prompt) to text.
Python strings are Lean `String`s (sequences of code points, exactly
what Python's `len`, slicing and `in` operate on).
-/

/-- Model of Python `str.lower()` restricted to the ASCII range, which is
the only range the rate-limit classifier inspects (`"429"`, `"quota"`). -/
def pyLower (s : String) : String :=
  String.mk (s.data.map Char.toLower)

/-- The whitespace characters stripped by Python `str.strip()` (ASCII). -/
def isPySpace (c : Char) : Bool :=
  c = ' ' || c = '\t' || c = '\n' || c = '\x0d' || c = '\x0b' || c = '\x0c'

/-- Model of Python `str.strip()`: drop leading and trailing whitespace. -/
def pyStrip (s : String) : String :=
  String.mk (((s.data.dropWhile isPySpace).reverse.dropWhile isPySpace).reverse)

/-- Model of Python `pat in s`: substring containment on code points. -/
def strContains (s pat : String) : Bool :=
  decide (pat.data <:+: s.data)

/-- Model of Python `s[-n:]` for `n ≥ 1`: the last `n` characters of `s`
(the whole string when it is shorter). -/
def pyTail (s : String) (n : Nat) : String :=
  String.mk (s.data.drop (s.data.length - n))

/-- Rate-limit classification of `generate_with_retry`
(daily_ai_report.py:80-82): `msg = str(e).lower()` then
`"429" in msg or "quota" in msg`. -/
def isRateLimit (msg : String) : Bool :=
  strContains (pyLower msg) "429" || strContains (pyLower msg) "quota"

deriving instance DecidableEq for Except

/-- Observable behaviour of one `generate_with_retry` run: the outcome
(`Except.error none` models `raise last_err` with `last_err = None`),
the number of service calls made, the trace of sleep durations in
seconds, and whether the trailing `raise last_err` after the loop was
reached. -/
structure RetryTrace where
  outcome : Except (Option String) String
  calls : Nat
  sleeps : List Nat
  fellThrough : Bool
deriving DecidableEq

/-- The `for i in range(retries)` loop of `generate_with_retry`
(daily_ai_report.py:75-89), structurally recursive on the number of
remaining iterations (`fuel`, with invariant `i + fuel = retries`).
At attempt `i` the service is called; on success the result is
returned; on an error classified as rate-limiting with `i < retries - 1`
the loop sleeps `(i + 1) * 30` seconds and retries; any other error is
re-raised at once.  `fuel = 0` is the loop falling through to the
trailing `raise last_err`. -/
def generateWithRetryAux (call : Nat → Except String String) (retries : Nat) :
    Nat → Nat → Option String → RetryTrace
  | 0, i, lastErr => ⟨Except.error lastErr, i, [], true⟩
  | fuel + 1, i, _ =>
    match call i with
    | Except.ok r => ⟨Except.ok r, i + 1, [], false⟩
    | Except.error e =>
      if isRateLimit e && decide (i < retries - 1) then
        let rest := generateWithRetryAux call retries fuel (i + 1) (some e)
        ⟨rest.outcome, rest.calls, (i + 1) * 30 :: rest.sleeps, rest.fellThrough⟩
      else
        ⟨Except.error (some e), i + 1, [], false⟩

/-- `generate_with_retry(model_name, prompt_text, retries)`
(daily_ai_report.py:66-89).  The service `gen` maps the model name, the
prompt and the 0-based attempt index to that attempt's outcome. -/
def generate_with_retry (gen : String → String → Nat → Except String String)
    (model_name prompt_text : String) (retries : Nat) : RetryTrace :=
  generateWithRetryAux (gen model_name prompt_text) retries retries 0 none

/-- One entry of `genai.list_models()`: a model name together with its
supported generation methods (daily_ai_report.py:96). -/
structure ModelInfo where
  name : String
  supported_generation_methods : List String
deriving DecidableEq

/-- The fixed preference order of `choose_model` (daily_ai_report.py:97-102). -/
def model_candidates : List String :=
  ["models/gemini-2.5-flash", "models/gemini-2.0-flash",
   "models/gemini-1.5-flash", "models/gemini-pro"]

/-- The names of the models supporting content generation
(daily_ai_report.py:96). -/
def capable_models (models : List ModelInfo) : List String :=
  (models.filter
    (fun m => m.supported_generation_methods.contains "generateContent")).map
    (fun m => m.name)

/-- `choose_model()` (daily_ai_report.py:92-103): first preferred
candidate present among the capable models, else the first capable
model; `none` models the `IndexError` of `all_models[0]` on an empty
capable list, which aborts the run. -/
def choose_model (models : List ModelInfo) : Option String :=
  match model_candidates.find? (fun c => (capable_models models).contains c) with
  | some c => some c
  | none => (capable_models models).head?

/-- A collected item (spec §3 CollectedItem; the dicts built by
`collect_items`, daily_ai_report.py:180-204, always carry these four
string fields). -/
structure Item where
  type : String
  title : String
  body : String
  link : String
deriving DecidableEq

/-- The line `f"- {t} — {link}"` emitted by `build_raw_index`
(daily_ai_report.py:121-123). -/
def indexLine (t link : String) : String :=
  "- " ++ t ++ " — " ++ link

/-- The loop body of `build_raw_index` (daily_ai_report.py:114-123):
per item, strip title and link, skip the item when either is empty,
otherwise append its line to the list matching its kind; unrecognized
kinds are skipped. -/
def raw_index_lines : List Item → List String × List String
  | [] => ([], [])
  | it :: rest =>
    let t := pyStrip it.title
    let link := pyStrip it.link
    let tails := raw_index_lines rest
    if t = "" || link = "" then tails
    else if it.type = "news" then (indexLine t link :: tails.1, tails.2)
    else if it.type = "paper" then (tails.1, indexLine t link :: tails.2)
    else tails

/-- `build_raw_index(items)` (daily_ai_report.py:106-125): the two line
lists joined with `"\n"`. -/
def build_raw_index (items : List Item) : String × String :=
  (String.intercalate "\n" (raw_index_lines items).1,
   String.intercalate "\n" (raw_index_lines items).2)

/-- The required header markers of `validate_report_format`
(daily_ai_report.py:132-139). -/
def required_headers : List String :=
  ["# [AI Daily]", "## 오늘의 Top 이슈", "## 오늘의 실무 액션 3가지",
   "## 원문 목록 (Raw Index)", "### 뉴스", "### 논문"]

/-- `validate_report_format(report_text)` (daily_ai_report.py:128-140):
the required markers absent from the text, in order. -/
def validate_report_format (report_text : String) : List String :=
  required_headers.filter (fun k => !(strContains report_text k))

/-- The raw-index section marker checked by `looks_truncated`
(daily_ai_report.py:149). -/
def raw_index_marker : String := "## 원문 목록 (Raw Index)"

/-- `looks_truncated(report_text)` (daily_ai_report.py:143-151). -/
def looks_truncated (report_text : String) : Bool :=
  if report_text.length < 1200 then true
  else if !(strContains report_text raw_index_marker) then true
  else false

/-- The continuation prompt of `continue_report`
(daily_ai_report.py:159-166): the instruction text around the draft's
tail, stripped like the Python triple-quoted f-string. -/
def continuation_prompt (tail : String) : String :=
  pyStrip ("\n아래 글의 다음 내용을 이어서 작성하라. 중복/재작성 금지.\n마크다운 형식 유지. 마지막은 자연스럽게 마무리.\n\n--- 글의 끝부분 ---\n"
    ++ tail ++ "\n--- 여기부터 이어쓰기 ---\n")

/-- `continue_report(model_name, existing_text)`
(daily_ai_report.py:154-168).  `gen` maps the model name and a prompt to
the text of a successful generation (a generation failure raises and
aborts the run; it is modelled by `generate_with_retry`). -/
def continue_report (gen : String → String → String)
    (model_name existing_text : String) : String :=
  let tail := pyTail existing_text 1500
  let prompt2 := continuation_prompt tail
  existing_text ++ "\n" ++ pyStrip (gen model_name prompt2)

/-- One per-item summary record appended by `map_summaries`
(daily_ai_report.py:248-256). -/
structure ItemSummary where
  idx : Nat
  type : String
  title : String
  link : String
  summary_text : String
deriving DecidableEq

/-- The `item_text` block of `map_summaries` (daily_ai_report.py:216-222). -/
def item_text (it : Item) : String :=
  pyStrip ("\n[타입] " ++ it.type ++ "\n[제목] " ++ it.title ++ "\n[본문]\n"
    ++ it.body ++ "\n[링크] " ++ it.link ++ "\n")

/-- The `summary_prompt` of `map_summaries` (daily_ai_report.py:224-243). -/
def summary_prompt (it : Item) : String :=
  pyStrip ("\n너는 시니어 개발자 관점의 AI 뉴스/논문 분석가다.\n아래 항목을 한국어로 \x27구조화 요약\x27하라.\n사실 중심으로 작성하고, 추측/과장 금지. 링크는 그대로 유지한다.\n\n[출력 형식 - 반드시 지킬 것]\n- 제목:\n- 분류: (뉴스/논문)\n- 핵심 키워드: (중복 없는 단어 3개)\n- 핵심 포인트:\n  - (1)\n  - (2)\n  - (3)\n- 기술 스택 태그: (예: Java/Spring | Python | TS/Node | MLOps 등)\n- 개발자 관점 한 줄 평: (1문장)\n- 참고 링크:\n\n[항목]\n"
    ++ item_text it ++ "\n")

/-- The `for idx, it in enumerate(items, start=1)` loop of
`map_summaries` (daily_ai_report.py:215-256): one sequential generation
call per item; the first failure aborts the whole map stage. -/
def mapSummariesAux (gen : String → String → Except String String)
    (model_name : String) : Nat → List Item → Except String (List ItemSummary)
  | _, [] => Except.ok []
  | idx, it :: rest =>
    match gen model_name (summary_prompt it) with
    | Except.error e => Except.error e
    | Except.ok txt =>
      match mapSummariesAux gen model_name (idx + 1) rest with
      | Except.error e => Except.error e
      | Except.ok tl =>
        Except.ok (⟨idx, it.type, it.title, it.link, pyStrip txt⟩ :: tl)

/-- `map_summaries(model_name, items)` (daily_ai_report.py:212-258):
the enumeration starts at 1. -/
def map_summaries (gen : String → String → Except String String)
    (model_name : String) (items : List Item) :
    Except String (List ItemSummary) :=
  mapSummariesAux gen model_name 1 items

/-- Observable behaviour of the format-guard segment of `main`
(daily_ai_report.py:354-368): the final report text, how many
continuation calls were issued, the post-continuation missing-header
list (logged only), and the list of report-artifact writes performed. -/
structure GuardPhase where
  final_text : String
  continuation_calls : Nat
  missing2 : List String
  report_writes : List String
deriving DecidableEq

/-- The format-guard and persistence segment of `main`
(daily_ai_report.py:354-368): validate the draft once, run the
truncation heuristic, issue the single `continue_report` call when
either check fires (`continuation_calls` counts the `continue_report`
invocations, one in the then-branch, none otherwise), re-validate for
logging only, then write the report artifact exactly once. -/
def report_guard_phase (gen : String → String → String)
    (model_name report_text : String) : GuardPhase :=
  let missing := validate_report_format report_text
  let needFix := !missing.isEmpty || looks_truncated report_text
  let text2 := if needFix then continue_report gen model_name report_text
               else report_text
  let calls := if needFix then 1 else 0
  { final_text := text2, continuation_calls := calls,
    missing2 := validate_report_format text2, report_writes := [text2] }

/-- One file of the remote Drive folder as seen by the name query of
`upload_if_not_exists` (upload_to_drive.py:29-35). -/
structure RemoteFile where
  name : String
  trashed : Bool
deriving DecidableEq

/-- A mutating Drive API call issued by the uploader. -/
inductive DriveCall
  | create (name : String)
  | update (name : String)
deriving DecidableEq

/-- Observable behaviour of one `upload_if_not_exists` call: the
returned status pair, the mutating Drive calls issued, and the folder
contents afterwards. -/
structure UploadResult where
  status : String
  file_name : String
  calls : List DriveCall
  folder_after : List RemoteFile
deriving DecidableEq

/-- `upload_if_not_exists(service, folder_id, local_path)`
(upload_to_drive.py:21-43): query the folder for a non-trashed file of
the same name; if any exists, skip with no mutating call; otherwise
create the file. -/
def upload_if_not_exists (folder : List RemoteFile) (file_name : String) :
    UploadResult :=
  let files := folder.filter (fun f => f.name == file_name && f.trashed == false)
  if files.isEmpty then
    ⟨"created", file_name, [DriveCall.create file_name],
      folder ++ [⟨file_name, false⟩]⟩
  else
    ⟨"skipped", file_name, [], folder⟩

/-- Specification-side description of `build_raw_index`'s news list:
the one line an item contributes to the news index, `none` when the
item is excluded (empty trimmed title or link, or a kind other than
news). -/
def newsLineOf (it : Item) : Option String :=
  if pyStrip it.title = "" || pyStrip it.link = "" then none
  else if it.type = "news" then
    some (indexLine (pyStrip it.title) (pyStrip it.link))
  else none

/-- Specification-side description of `build_raw_index`'s paper list. -/
def paperLineOf (it : Item) : Option String :=
  if pyStrip it.title = "" || pyStrip it.link = "" then none
  else if it.type = "paper" then
    some (indexLine (pyStrip it.title) (pyStrip it.link))
  else none

/-- The summary record `s` is the one `map_summaries` builds for item
`it` at 1-based position `k`: same kind, title and link, and a
summary text that is the stripped text of a successful generation on
the item's prompt. -/
def summary_of (gen : String → String → Except String String)
    (model_name : String) (k : Nat) (it : Item) (s : ItemSummary) : Prop :=
  s.idx = k ∧ s.type = it.type ∧ s.title = it.title ∧ s.link = it.link ∧
    ∃ txt, gen model_name (summary_prompt it) = Except.ok txt ∧
      s.summary_text = pyStrip txt

theorem pyTail_data (s : String) (n : Nat) :
    (pyTail s n).data = s.data.drop (s.data.length - n) := rfl

theorem find_eq_filter_head (p : String → Bool) (l : List String) :
    l.find? p = (l.filter p).head? := by
  induction l with
  | nil => rfl
  | cons a t ih =>
    cases h : p a
    · rw [List.find?_cons_of_neg _ (by simp [h]),
        List.filter_cons_of_neg (by simp [h]), ih]
    · rw [List.find?_cons_of_pos _ h, List.filter_cons_of_pos h, List.head?_cons]

/-- Claim C4: `looks_truncated` is true exactly when the text is shorter
than 1200 characters or the raw-index marker is absent; a 1199-character
text is classified truncated, and a text of 1200 or more characters
containing the marker is not. -/
theorem looks_truncated_boundary :
    (∀ t : String, looks_truncated t = true ↔
      (t.length < 1200 ∨ strContains t raw_index_marker = false))
  ∧ (∀ t : String, t.length = 1199 → looks_truncated t = true)
  ∧ (∀ t : String, 1200 ≤ t.length → strContains t raw_index_marker = true →
      looks_truncated t = false) := by
  refine ⟨?_, ?_, ?_⟩
  · intro t
    constructor
    · intro h
      by_cases h1 : t.length < 1200
      · exact Or.inl h1
      · refine Or.inr ?_
        by_cases h2 : strContains t raw_index_marker = true
        · exfalso
          simp [looks_truncated, h1, h2] at h
        · simpa using h2
    · intro h
      rcases h with h | h
      · simp [looks_truncated, h]
      · simp [looks_truncated, h]
  · intro t h
    have h1 : t.length < 1200 := by omega
    simp [looks_truncated, h1]
  · intro t h1 h2
    have h3 : ¬ t.length < 1200 := by omega
    simp [looks_truncated, h3, h2]

theorem looks_truncated_boundary_witness :
    looks_truncated (String.mk (List.replicate 1199 'a')) = true ∧
    looks_truncated (raw_index_marker ++ String.mk (List.replicate 1200 'a')) =
      false := by
  have h := looks_truncated_boundary
  refine ⟨h.2.1 _ ?_, h.2.2 _ ?_ ?_⟩
  · show (List.replicate 1199 'a').length = 1199
    rw [List.length_replicate]
  · have hm : raw_index_marker.length = 20 := by decide
    have hp : (String.mk (List.replicate 1200 'a')).length = 1200 := by
      show (List.replicate 1200 'a').length = 1200
      rw [List.length_replicate]
    have ha := String.length_append raw_index_marker
      (String.mk (List.replicate 1200 'a'))
    omega
  · apply decide_eq_true
    refine ⟨[], (String.mk (List.replicate 1200 'a')).data, ?_⟩
    rw [List.nil_append, ← String.data_append]

/-- Claim C3: `build_raw_index`'s line lists are exactly the items'
lines filtered by eligibility and kind, in input order (`filterMap`),
and an item with empty trimmed title or link contributes to neither
list. -/
theorem raw_index_lines_spec :
    (∀ items : List Item,
      raw_index_lines items =
        (items.filterMap newsLineOf, items.filterMap paperLineOf))
  ∧ (∀ it : Item, (pyStrip it.title = "" ∨ pyStrip it.link = "") →
      newsLineOf it = none ∧ paperLineOf it = none) := by
  constructor
  · intro items
    induction items with
    | nil => rfl
    | cons it rest ih =>
      by_cases ht : pyStrip it.title = ""
      · simp [raw_index_lines, newsLineOf, paperLineOf, ht, ih]
      · by_cases hl : pyStrip it.link = ""
        · simp [raw_index_lines, newsLineOf, paperLineOf, ht, hl, ih]
        · by_cases hn : it.type = "news"
          · simp [raw_index_lines, newsLineOf, paperLineOf, ht, hl, hn, ih]
          · by_cases hp : it.type = "paper"
            · simp [raw_index_lines, newsLineOf, paperLineOf, ht, hl, hn, hp, ih]
            · simp [raw_index_lines, newsLineOf, paperLineOf, ht, hl, hn, hp, ih]
  · intro it h
    rcases h with h | h
    · exact ⟨by simp [newsLineOf, h], by simp [paperLineOf, h]⟩
    · exact ⟨by simp [newsLineOf, h], by simp [paperLineOf, h]⟩

theorem raw_index_lines_spec_witness :
    raw_index_lines
      [⟨"news", " ", "b", "x"⟩, ⟨"news", "T", "b", "L"⟩,
       ⟨"paper", "P", "b", "Q"⟩, ⟨"other", "A", "b", "B"⟩] =
      (["- T — L"], ["- P — Q"]) ∧
    newsLineOf ⟨"news", " ", "b", "x"⟩ = none := by
  have h := raw_index_lines_spec
  exact ⟨(h.1 _).trans (by decide), (h.2 ⟨"news", " ", "b", "x"⟩
    (Or.inl (by decide))).1⟩

/-- Claim C1: when the first two attempts fail with rate-limit-classified
errors and the third succeeds, `generate_with_retry` with `retries = 3`
returns the third result after exactly 3 calls, sleeping 30 then 60
seconds. -/
theorem retry_backoff_three_attempts
    (gen : String → String → Nat → Except String String)
    (model_name prompt_text e1 e2 r : String)
    (h0 : gen model_name prompt_text 0 = Except.error e1)
    (h1 : gen model_name prompt_text 1 = Except.error e2)
    (h2 : gen model_name prompt_text 2 = Except.ok r)
    (hr1 : isRateLimit e1 = true) (hr2 : isRateLimit e2 = true) :
    generate_with_retry gen model_name prompt_text 3 =
      ⟨Except.ok r, 3, [30, 60], false⟩ := by
  simp [generate_with_retry, generateWithRetryAux, h0, h1, h2, hr1, hr2]

theorem retry_backoff_three_attempts_witness :
    generate_with_retry
      (fun _ _ i => if i = 0 then Except.error "HTTP 429 rate limit"
        else if i = 1 then Except.error "Quota exceeded for today"
        else Except.ok "third time lucky") "m" "p" 3 =
      ⟨Except.ok "third time lucky", 3, [30, 60], false⟩ :=
  retry_backoff_three_attempts _ "m" "p" "HTTP 429 rate limit"
    "Quota exceeded for today" "third time lucky" rfl rfl rfl
    (by decide) (by decide)

/-- Claim C5: a non-rate-limit error on the first call is raised at once
after exactly one call and no sleep, whatever the attempt budget; and on
the final attempt (one loop iteration left) any error, rate-limited or
not, is raised at once. -/
theorem nonretryable_short_circuit :
    (∀ (gen : String → String → Nat → Except String String)
       (model_name prompt_text e : String) (retries : Nat), 1 ≤ retries →
       gen model_name prompt_text 0 = Except.error e → isRateLimit e = false →
       generate_with_retry gen model_name prompt_text retries =
         ⟨Except.error (some e), 1, [], false⟩)
  ∧ (∀ (call : Nat → Except String String) (retries : Nat)
       (lastErr : Option String) (e : String), 1 ≤ retries →
       call (retries - 1) = Except.error e →
       generateWithRetryAux call retries 1 (retries - 1) lastErr =
         ⟨Except.error (some e), retries, [], false⟩) := by
  constructor
  · intro gen m p e retries hret h0 hrl
    obtain ⟨n, rfl⟩ : ∃ n, retries = n + 1 := ⟨retries - 1, by omega⟩
    simp [generate_with_retry, generateWithRetryAux, h0, hrl]
  · intro call retries lastErr e hret hcall
    have h1 : retries - 1 + 1 = retries := by omega
    simp [generateWithRetryAux, hcall, Nat.lt_irrefl, h1]

theorem nonretryable_short_circuit_witness :
    generate_with_retry (fun _ _ _ => Except.error "boom") "m" "p" 5 =
      ⟨Except.error (some "boom"), 1, [], false⟩ ∧
    generateWithRetryAux (fun _ => Except.error "err 429") 4 1 3 (some "prev") =
      ⟨Except.error (some "err 429"), 4, [], false⟩ := by
  have h := nonretryable_short_circuit
  exact ⟨h.1 _ "m" "p" "boom" 5 (by decide) rfl (by decide),
         h.2 _ 4 (some "prev") "err 429" (by decide) rfl⟩

theorem generateWithRetryAux_resolves (call : Nat → Except String String)
    (retries : Nat) :
    ∀ fuel i lastErr, i + fuel = retries → 1 ≤ fuel →
      (generateWithRetryAux call retries fuel i lastErr).fellThrough = false ∧
      ((∃ j r, i ≤ j ∧ j < retries ∧ call j = Except.ok r ∧
          (generateWithRetryAux call retries fuel i lastErr).outcome =
            Except.ok r) ∨
       (∃ j e, i ≤ j ∧ j < retries ∧ call j = Except.error e ∧
          (generateWithRetryAux call retries fuel i lastErr).outcome =
            Except.error (some e))) := by
  intro fuel
  induction fuel with
  | zero => intro i lastErr hinv hfuel; omega
  | succ n ih =>
    intro i lastErr hinv _
    cases hc : call i with
    | ok r =>
      refine ⟨by simp [generateWithRetryAux, hc], Or.inl ⟨i, r, le_refl i,
        by omega, hc, by simp [generateWithRetryAux, hc]⟩⟩
    | error e =>
      by_cases hcond : (isRateLimit e && decide (i < retries - 1)) = true
      · have hboth := hcond
        rw [Bool.and_eq_true] at hboth
        have hlt : i < retries - 1 := of_decide_eq_true hboth.2
        have hn : 1 ≤ n := by omega
        obtain ⟨hft, hout⟩ := ih (i + 1) (some e) (by omega) hn
        have houtEq : (generateWithRetryAux call retries (n + 1) i lastErr).outcome
            = (generateWithRetryAux call retries n (i + 1) (some e)).outcome := by
          simp [generateWithRetryAux, hc, hcond]
        refine ⟨by simp [generateWithRetryAux, hc, hcond, hft], ?_⟩
        rcases hout with ⟨j, r, hij, hjr, hcj, ho⟩ | ⟨j, e2, hij, hjr, hcj, ho⟩
        · exact Or.inl ⟨j, r, by omega, hjr, hcj, by rw [houtEq]; exact ho⟩
        · exact Or.inr ⟨j, e2, by omega, hjr, hcj, by rw [houtEq]; exact ho⟩
      · refine ⟨by simp [generateWithRetryAux, hc, hcond], Or.inr ⟨i, e,
          le_refl i, by omega, hc, by simp [generateWithRetryAux, hc, hcond]⟩⟩

/-- Claim C10: with at least one attempt allowed, a `generate_with_retry`
run never reaches the trailing `raise last_err` after the loop: its
outcome is a result returned by some service call, or the error some
service call raised inside the loop (never a stale or `None` error). -/
theorem generate_with_retry_no_stale_error
    (gen : String → String → Nat → Except String String)
    (model_name prompt_text : String) (retries : Nat) (hret : 1 ≤ retries) :
    (generate_with_retry gen model_name prompt_text retries).fellThrough =
      false ∧
    ((∃ i r, i < retries ∧ gen model_name prompt_text i = Except.ok r ∧
        (generate_with_retry gen model_name prompt_text retries).outcome =
          Except.ok r) ∨
     (∃ i e, i < retries ∧ gen model_name prompt_text i = Except.error e ∧
        (generate_with_retry gen model_name prompt_text retries).outcome =
          Except.error (some e))) := by
  have h := generateWithRetryAux_resolves (gen model_name prompt_text) retries
    retries 0 none (by omega) hret
  refine ⟨h.1, ?_⟩
  rcases h.2 with ⟨j, r, _, hjr, hcj, ho⟩ | ⟨j, e, _, hjr, hcj, ho⟩
  · exact Or.inl ⟨j, r, hjr, hcj, ho⟩
  · exact Or.inr ⟨j, e, hjr, hcj, ho⟩

theorem generate_with_retry_no_stale_error_witness :
    (generate_with_retry (fun _ _ _ => Except.ok "x") "m" "p" 1).fellThrough =
      false ∧
    ((∃ i r, i < 1 ∧
        (fun (_ _ : String) (_ : Nat) =>
          (Except.ok "x" : Except String String)) "m" "p" i = Except.ok r ∧
        (generate_with_retry (fun _ _ _ => Except.ok "x") "m" "p" 1).outcome =
          Except.ok r) ∨
     (∃ i e, i < 1 ∧
        (fun (_ _ : String) (_ : Nat) =>
          (Except.ok "x" : Except String String)) "m" "p" i = Except.error e ∧
        (generate_with_retry (fun _ _ _ => Except.ok "x") "m" "p" 1).outcome =
          Except.error (some e))) :=
  generate_with_retry_no_stale_error (fun _ _ _ => Except.ok "x") "m" "p" 1
    (by decide)

/-- Claim C7: `choose_model` returns the first candidate of the fixed
preference order present among the capable models; when no candidate is
available it falls back to the first capable model; and it fails
(`none`, the `IndexError` aborting the run) exactly when the capable
set is empty. -/
theorem choose_model_preference (models : List ModelInfo) :
    (∀ c, (model_candidates.filter
        (fun x => (capable_models models).contains x)).head? = some c →
      choose_model models = some c)
  ∧ ((∀ c, c ∈ model_candidates →
        (capable_models models).contains c = false) →
      choose_model models = (capable_models models).head?)
  ∧ (choose_model models = none ↔ capable_models models = []) := by
  refine ⟨?_, ?_, ?_⟩
  · intro c hc
    unfold choose_model
    rw [find_eq_filter_head, hc]
  · intro hall
    have hnone : model_candidates.find?
        (fun c => (capable_models models).contains c) = none := by
      rw [List.find?_eq_none]
      intro x hx
      rw [hall x hx]
      simp
    unfold choose_model
    rw [hnone]
  · cases hf : model_candidates.find?
        (fun c => (capable_models models).contains c) with
    | some c =>
      have hc := List.find?_some hf
      simp only [choose_model, hf]
      constructor
      · intro h; cases h
      · intro h
        rw [h] at hc
        cases hc
    | none =>
      simp only [choose_model, hf]
      exact List.head?_eq_none_iff

theorem choose_model_preference_witness :
    choose_model [⟨"models/zeta", ["generateContent"]⟩,
      ⟨"models/gemini-1.5-flash", ["generateContent"]⟩] =
      some "models/gemini-1.5-flash" ∧
    choose_model [] = none := by
  refine ⟨(choose_model_preference _).1 _ (by decide), ?_⟩
  exact (choose_model_preference []).2.2.mpr rfl

/-- Claim C8: `continue_report` returns the original draft unchanged,
a single line break, then the trimmed generated continuation, whose
prompt is built from exactly the last 1500 characters of the draft
(the whole draft when shorter); the draft is a prefix of the result. -/
theorem continue_report_appends (gen : String → String → String)
    (model_name existing_text : String) :
    continue_report gen model_name existing_text =
      existing_text ++ "\n" ++
        pyStrip (gen model_name (continuation_prompt (pyTail existing_text 1500)))
  ∧ existing_text.data <+: (continue_report gen model_name existing_text).data
  ∧ (existing_text.length ≤ 1500 → pyTail existing_text 1500 = existing_text)
  ∧ (1500 ≤ existing_text.length →
      (pyTail existing_text 1500).length = 1500 ∧
      (pyTail existing_text 1500).data <:+ existing_text.data) := by
  refine ⟨rfl, ?_, ?_, ?_⟩
  · have hd : (continue_report gen model_name existing_text).data =
        existing_text.data ++ ("\n".data ++
          (pyStrip (gen model_name
            (continuation_prompt (pyTail existing_text 1500)))).data) := by
      show ((existing_text ++ "\n") ++ _).data = _
      rw [String.data_append, String.data_append, List.append_assoc]
    rw [hd]
    exact List.prefix_append _ _
  · intro h
    have h2 : existing_text.data.length ≤ 1500 := h
    unfold pyTail
    rw [show existing_text.data.length - 1500 = 0 from by omega, List.drop_zero]
  · intro h
    have h2 : 1500 ≤ existing_text.data.length := h
    constructor
    · show (existing_text.data.drop (existing_text.data.length - 1500)).length
        = 1500
      rw [List.length_drop]
      omega
    · rw [pyTail_data]
      exact List.drop_suffix _ _

theorem continue_report_appends_witness :
    continue_report (fun _ _ => " done ") "m"
      (String.mk (List.replicate 1500 'a')) =
      String.mk (List.replicate 1500 'a') ++ "\n" ++ "done" ∧
    pyTail (String.mk (List.replicate 1500 'a')) 1500 =
      String.mk (List.replicate 1500 'a') ∧
    (pyTail (String.mk (List.replicate 1500 'a')) 1500).length = 1500 := by
  have hlen : (String.mk (List.replicate 1500 'a')).length = 1500 := by
    show (List.replicate 1500 'a').length = 1500
    rw [List.length_replicate]
  have h := continue_report_appends (fun _ _ => " done ") "m"
    (String.mk (List.replicate 1500 'a'))
  refine ⟨h.1.trans ?_, h.2.2.1 (by omega), (h.2.2.2 (by omega)).1⟩
  congr 1

/-- Claim C2: in the driver's format-guard segment the continuation is
issued at most once — exactly once when the first validation finds
missing headers or the truncation heuristic fires, never otherwise —
the report artifact is written exactly once, and a non-empty
post-continuation missing-header list does not prevent the write. -/
theorem guard_single_continuation (gen : String → String → String)
    (model_name draft : String) :
    (report_guard_phase gen model_name draft).continuation_calls ≤ 1
  ∧ ((report_guard_phase gen model_name draft).continuation_calls = 1 ↔
      (validate_report_format draft ≠ [] ∨ looks_truncated draft = true))
  ∧ (report_guard_phase gen model_name draft).report_writes =
      [(report_guard_phase gen model_name draft).final_text]
  ∧ ((report_guard_phase gen model_name draft).missing2 ≠ [] →
      (report_guard_phase gen model_name draft).report_writes.length = 1) := by
  have hiff : (!(validate_report_format draft).isEmpty
      || looks_truncated draft) = true ↔
      (validate_report_format draft ≠ [] ∨ looks_truncated draft = true) := by
    cases hv : validate_report_format draft with
    | nil => simp
    | cons a t => simp
  by_cases h : (!(validate_report_format draft).isEmpty
      || looks_truncated draft) = true
  · refine ⟨?_, ?_, rfl, fun _ => rfl⟩
    · simp [report_guard_phase, h]
    · simp [report_guard_phase, h, hiff.mp h]
  · have hfalse : (!(validate_report_format draft).isEmpty
        || looks_truncated draft) = false := Bool.eq_false_iff.mpr h
    have hnr : ¬(validate_report_format draft ≠ [] ∨
        looks_truncated draft = true) := fun hh => h (hiff.mpr hh)
    refine ⟨?_, ?_, rfl, fun _ => rfl⟩
    · simp [report_guard_phase, hfalse]
    · simp [report_guard_phase, hfalse, hnr]

theorem guard_single_continuation_witness :
    (report_guard_phase (fun _ _ => "") "m" "").continuation_calls ≤ 1 ∧
    (report_guard_phase (fun _ _ => "") "m" "").report_writes.length = 1 := by
  have h := guard_single_continuation (fun _ _ => "") "m" ""
  exact ⟨h.1, h.2.2.2 (by decide)⟩

theorem mapSummariesAux_ok (gen : String → String → Except String String)
    (model_name : String) :
    ∀ (items : List Item) (idx : Nat),
      (∀ it, it ∈ items →
        ∃ txt, gen model_name (summary_prompt it) = Except.ok txt) →
      ∃ ss, mapSummariesAux gen model_name idx items = Except.ok ss ∧
        ss.length = items.length ∧
        ∀ k (h1 : k < items.length) (h2 : k < ss.length),
          summary_of gen model_name (idx + k) (items.get ⟨k, h1⟩)
            (ss.get ⟨k, h2⟩) := by
  intro items
  induction items with
  | nil =>
    intro idx _
    exact ⟨[], rfl, rfl, fun k h1 h2 => absurd h1 (by simp)⟩
  | cons it rest ih =>
    intro idx hall
    obtain ⟨txt, htxt⟩ := hall it (by simp)
    obtain ⟨ss, hss, hlen, hmem⟩ := ih (idx + 1)
      (fun x hx => hall x (by simp [hx]))
    refine ⟨⟨idx, it.type, it.title, it.link, pyStrip txt⟩ :: ss, ?_, ?_, ?_⟩
    · simp [mapSummariesAux, htxt, hss]
    · simp [hlen]
    · intro k h1 h2
      cases k with
      | zero =>
        unfold summary_of
        exact ⟨by simp, rfl, rfl, rfl, ⟨txt, htxt, rfl⟩⟩
      | succ j =>
        have h1r : j < rest.length := by simpa using h1
        have h2r : j < ss.length := by simpa using h2
        have hj := hmem j h1r h2r
        have harith : idx + 1 + j = idx + (j + 1) := by omega
        rw [harith] at hj
        simpa using hj

theorem mapSummariesAux_err (gen : String → String → Except String String)
    (model_name : String) :
    ∀ (items : List Item) (idx : Nat),
      (∃ it, it ∈ items ∧
        ∃ e, gen model_name (summary_prompt it) = Except.error e) →
      ∃ e2, mapSummariesAux gen model_name idx items = Except.error e2 := by
  intro items
  induction items with
  | nil =>
    intro idx h
    obtain ⟨it, hmem, _⟩ := h
    cases hmem
  | cons a rest ih =>
    intro idx h
    cases hga : gen model_name (summary_prompt a) with
    | error e => exact ⟨e, by simp [mapSummariesAux, hga]⟩
    | ok txt =>
      obtain ⟨it, hmem, e, hge⟩ := h
      have hit : it ∈ rest := by
        rcases List.mem_cons.mp hmem with rfl | hr
        · rw [hga] at hge; cases hge
        · exact hr
      obtain ⟨e2, he2⟩ := ih (idx + 1) ⟨it, hit, e, hge⟩
      exact ⟨e2, by simp [mapSummariesAux, hga, he2]⟩

/-- Claim C6: when every per-item generation call succeeds,
`map_summaries` returns one summary per input item, in input order,
with 1-based consecutive `idx` values; when any item's call fails,
the whole map stage fails with an error and no summary list is
returned. -/
theorem map_summaries_shape (gen : String → String → Except String String)
    (model_name : String) (items : List Item) :
    ((∀ it, it ∈ items →
        ∃ txt, gen model_name (summary_prompt it) = Except.ok txt) →
      ∃ ss, map_summaries gen model_name items = Except.ok ss ∧
        ss.length = items.length ∧
        ∀ k (h1 : k < items.length) (h2 : k < ss.length),
          summary_of gen model_name (k + 1) (items.get ⟨k, h1⟩)
            (ss.get ⟨k, h2⟩))
  ∧ ((∃ it, it ∈ items ∧
        ∃ e, gen model_name (summary_prompt it) = Except.error e) →
      ∃ e, map_summaries gen model_name items = Except.error e) := by
  constructor
  · intro hall
    obtain ⟨ss, hss, hlen, hmem⟩ := mapSummariesAux_ok gen model_name items 1 hall
    refine ⟨ss, hss, hlen, ?_⟩
    intro k h1 h2
    have hk := hmem k h1 h2
    rwa [Nat.add_comm 1 k] at hk
  · intro h
    exact mapSummariesAux_err gen model_name items 1 h

theorem map_summaries_shape_witness :
    (∃ ss, map_summaries (fun _ _ => Except.ok " sum ") "m"
        [⟨"news", "T", "B", "L"⟩] = Except.ok ss ∧
      ss.length = [(⟨"news", "T", "B", "L"⟩ : Item)].length ∧
      ∀ k (h1 : k < [(⟨"news", "T", "B", "L"⟩ : Item)].length)
        (h2 : k < ss.length),
        summary_of (fun _ _ => Except.ok " sum ") "m" (k + 1)
          ([(⟨"news", "T", "B", "L"⟩ : Item)].get ⟨k, h1⟩)
          (ss.get ⟨k, h2⟩)) ∧
    (∃ e, map_summaries (fun _ _ => Except.error "boom") "m"
        [⟨"news", "T", "B", "L"⟩] = Except.error e) := by
  constructor
  · exact (map_summaries_shape (fun _ _ => Except.ok " sum ") "m" _).1
      (fun it _ => ⟨" sum ", rfl⟩)
  · exact (map_summaries_shape (fun _ _ => Except.error "boom") "m" _).2
      ⟨⟨"news", "T", "B", "L"⟩, by simp, "boom", rfl⟩

/-- Claim C9: when a non-trashed file with the same name already exists
in the remote folder, `upload_if_not_exists` returns status `"skipped"`,
issues no create or update call and leaves the folder unchanged; only
when no such file exists does it create the file. -/
theorem upload_skips_existing (folder : List RemoteFile) (file_name : String) :
    ((∃ f, f ∈ folder ∧ f.name = file_name ∧ f.trashed = false) →
      upload_if_not_exists folder file_name =
        ⟨"skipped", file_name, [], folder⟩)
  ∧ ((∀ f, f ∈ folder → ¬(f.name = file_name ∧ f.trashed = false)) →
      upload_if_not_exists folder file_name =
        ⟨"created", file_name, [DriveCall.create file_name],
          folder ++ [⟨file_name, false⟩]⟩) := by
  constructor
  · rintro ⟨f, hf, hname, htr⟩
    have hmem : f ∈ folder.filter
        (fun g => g.name == file_name && g.trashed == false) :=
      List.mem_filter.mpr ⟨hf, by simp [hname, htr]⟩
    have hne := List.ne_nil_of_mem hmem
    have hemp : (folder.filter
        (fun g => g.name == file_name && g.trashed == false)).isEmpty
        = false := by
      cases hq : folder.filter
          (fun g => g.name == file_name && g.trashed == false) with
      | nil => exact absurd hq hne
      | cons a t => rfl
    simp [upload_if_not_exists, hemp]
    exact ⟨f, hf, hname, htr⟩
  · intro hall
    have hempty : folder.filter
        (fun g => g.name == file_name && g.trashed == false) = [] := by
      rw [List.filter_eq_nil_iff]
      intro f hf
      have hn := hall f hf
      simpa using hn
    simp [upload_if_not_exists, hempty]
    intro x hx hnm
    cases htr : x.trashed
    · exact absurd ⟨hnm, htr⟩ (hall x hx)
    · rfl

theorem upload_skips_existing_witness :
    upload_if_not_exists [⟨"2025-01-01_AI_Report.md", false⟩]
      "2025-01-01_AI_Report.md" =
      ⟨"skipped", "2025-01-01_AI_Report.md", [],
        [⟨"2025-01-01_AI_Report.md", false⟩]⟩ ∧
    upload_if_not_exists [⟨"2025-01-01_AI_Report.md", false⟩]
      "2025-01-01_summaries.json" =
      ⟨"created", "2025-01-01_summaries.json",
        [DriveCall.create "2025-01-01_summaries.json"],
        [⟨"2025-01-01_AI_Report.md", false⟩,
         ⟨"2025-01-01_summaries.json", false⟩]⟩ := by
  have h1 := upload_skips_existing [⟨"2025-01-01_AI_Report.md", false⟩]
    "2025-01-01_AI_Report.md"
  have h2 := upload_skips_existing [⟨"2025-01-01_AI_Report.md", false⟩]
    "2025-01-01_summaries.json"
  exact ⟨h1.1 ⟨⟨"2025-01-01_AI_Report.md", false⟩, by simp, rfl, rfl⟩,
         h2.2 (by decide)⟩
